import Mathlib

/-!
Shallow embedding of `src/rwlock.py` (reader-preferring reader/writer lock).

The Python module builds a reader/writer lock (`RWLock`) out of two plain
mutual-exclusion locks (`threading.Lock`): `resource_lock` arbitrates between
the aggregate reader group and a single writer, and `read_cnt_lock` serializes
mutation of the reader counter `read_cnt`.  Guards (`RWLock._rlock`,
`RWLock._wlock`) are minted by `gen_rlock` / `gen_wlock`; each holds a
back-reference to the coordinator and a boolean instance attribute `locked`.

Embedding conventions:
  * a `threading.Lock` is a `Bool` (`true` = held);
  * Python exceptions are `Outcome.exn` carrying a `PyError` (class name and
    message as strings); the post-state of the mutated objects is returned
    alongside, since in Python the shared state survives the raise;
  * a guard operation returns `Option (Outcome r × Guard × RWLock)`, where
    `none` means the calling thread blocks inside the operation (a blocking
    `acquire` on a held primitive lock) and hence the operation does not
    complete;
  * the interleaving of many guards on one coordinator is a step relation on
    `Config`, whose steps are completed guard operations (guard `held` flags
    change only when an operation completes, so the held-flag claims are
    insensitive to intra-operation interleavings).
-/

/-- A Python exception, identified by its class name and message. -/
structure PyError where
  cls : String
  msg : String
deriving DecidableEq, Repr

/-- Result of running a Python call: a normal return value or a raised
exception. -/
inductive Outcome (α : Type) where
  | ok (v : α)
  | exn (e : PyError)
deriving DecidableEq, Repr

/-- Semantics of `threading.Lock.acquire(blocking)` on a lock whose state is
`held`: on a free lock it takes the lock and returns `True`; on a held lock a
blocking call suspends the caller (`none`) and a non-blocking call returns
`False` with no state change.  The pair is (return value, new lock state). -/
def lockAcquire (held : Bool) (blocking : Bool) : Option (Bool × Bool) :=
  if held then
    if blocking then none else some (false, held)
  else
    some (true, true)

/-- The exception CPython raises for `threading.Lock.release()` on an
unlocked lock: `RuntimeError` with message `release unlocked lock`. -/
def unlockedReleaseError : PyError :=
  { cls := "RuntimeError", msg := "release unlocked lock" }

/-- Semantics of `threading.Lock.release()`: frees a held lock; raises
`unlockedReleaseError` (leaving the state unchanged) on a free lock. -/
def lockRelease (held : Bool) : Outcome Unit × Bool :=
  if held then (.ok (), false) else (.exn unlockedReleaseError, held)

/-- The import-time probe of `src/rwlock.py` lines 14-20: it releases a fresh
(unheld) `threading.Lock`, catches the exception, and records it; if no
exception were raised the module would fail with `AssertionError`. -/
def RELEASE_ERR : PyError :=
  match lockRelease false with
  | (.exn e, _) => e
  | (.ok _, _) => { cls := "AssertionError", msg := "" }

/-- `RELEASE_ERR_CLS` of `src/rwlock.py`: the class of the probed exception. -/
def RELEASE_ERR_CLS : String := RELEASE_ERR.cls

/-- `RELEASE_ERR_MSG` of `src/rwlock.py`: the message of the probed
exception. -/
def RELEASE_ERR_MSG : String := RELEASE_ERR.msg

/-- The exception `raise RELEASE_ERR_CLS(RELEASE_ERR_MSG)` used by the guards
when released without being held. -/
def guardReleaseError : PyError :=
  { cls := RELEASE_ERR_CLS, msg := RELEASE_ERR_MSG }

/-- The coordinator state of `RWLock.__init__`: `read_cnt` (a Python int,
starting at 0) and the two primitive locks (both initially free). -/
structure RWLock where
  read_cnt : Int
  resource_lock : Bool
  read_cnt_lock : Bool
deriving DecidableEq, Repr

/-- A freshly constructed `RWLock()`. -/
def RWLock.new : RWLock :=
  { read_cnt := 0, resource_lock := false, read_cnt_lock := false }

/-- State of an `RWLock._rlock` guard: the boolean instance attribute
`locked` set by `__init__` (the back-reference `rw_lock` is passed
explicitly to each operation). -/
structure Rlock where
  locked : Bool
deriving DecidableEq, Repr

/-- State of an `RWLock._wlock` guard. -/
structure Wlock where
  locked : Bool
deriving DecidableEq, Repr

/-- `RWLock.gen_rlock`: a pure factory producing a fresh reader guard with
`locked = False`; it does not touch the coordinator state. -/
def RWLock.gen_rlock (_rw : RWLock) : Rlock := { locked := false }

/-- `RWLock.gen_wlock`: a pure factory producing a fresh writer guard. -/
def RWLock.gen_wlock (_rw : RWLock) : Wlock := { locked := false }

/-- `RWLock._rlock.acquire(blocking)`, translated statement by statement from
`src/rwlock.py` lines 77-88: acquire `read_cnt_lock` (return `False` on
failure), increment `read_cnt`, and when the post-increment count is 1
additionally acquire `resource_lock`, rolling back (decrement, release
`read_cnt_lock`, return `False`) if that fails; otherwise release
`read_cnt_lock`, set `locked = True` and return `True`. -/
def Rlock.acquire (g : Rlock) (rw : RWLock) (blocking : Bool) :
    Option (Outcome Bool × Rlock × RWLock) :=
  match lockAcquire rw.read_cnt_lock blocking with
  | none => none
  | some (false, rcl) => some (.ok false, g, { rw with read_cnt_lock := rcl })
  | some (true, rcl) =>
    let rw1 := { rw with read_cnt_lock := rcl, read_cnt := rw.read_cnt + 1 }
    if rw1.read_cnt = (1 : Int) then
      match lockAcquire rw1.resource_lock blocking with
      | none => none
      | some (false, res) =>
        let rw2 := { rw1 with resource_lock := res, read_cnt := rw1.read_cnt - 1 }
        match lockRelease rw2.read_cnt_lock with
        | (.exn e, rcl2) => some (.exn e, g, { rw2 with read_cnt_lock := rcl2 })
        | (.ok _, rcl2) => some (.ok false, g, { rw2 with read_cnt_lock := rcl2 })
      | some (true, res) =>
        let rw2 := { rw1 with resource_lock := res }
        match lockRelease rw2.read_cnt_lock with
        | (.exn e, rcl2) => some (.exn e, g, { rw2 with read_cnt_lock := rcl2 })
        | (.ok _, rcl2) =>
          some (.ok true, { g with locked := true }, { rw2 with read_cnt_lock := rcl2 })
    else
      match lockRelease rw1.read_cnt_lock with
      | (.exn e, rcl2) => some (.exn e, g, { rw1 with read_cnt_lock := rcl2 })
      | (.ok _, rcl2) =>
        some (.ok true, { g with locked := true }, { rw1 with read_cnt_lock := rcl2 })

/-- `RWLock._rlock.release()`, from `src/rwlock.py` lines 90-98: raise
`guardReleaseError` if `locked` is false; otherwise clear `locked`, acquire
`read_cnt_lock` (blocking), decrement `read_cnt`, release `resource_lock`
when the count reaches 0, and release `read_cnt_lock`. -/
def Rlock.release (g : Rlock) (rw : RWLock) :
    Option (Outcome Unit × Rlock × RWLock) :=
  if g.locked = false then
    some (.exn guardReleaseError, g, rw)
  else
    let g1 : Rlock := { g with locked := false }
    match lockAcquire rw.read_cnt_lock true with
    | none => none
    | some (_, rcl) =>
      let rw1 := { rw with read_cnt_lock := rcl, read_cnt := rw.read_cnt - 1 }
      if rw1.read_cnt = (0 : Int) then
        match lockRelease rw1.resource_lock with
        | (.exn e, res) => some (.exn e, g1, { rw1 with resource_lock := res })
        | (.ok _, res) =>
          let rw2 := { rw1 with resource_lock := res }
          match lockRelease rw2.read_cnt_lock with
          | (.exn e, rcl2) => some (.exn e, g1, { rw2 with read_cnt_lock := rcl2 })
          | (.ok _, rcl2) => some (.ok (), g1, { rw2 with read_cnt_lock := rcl2 })
      else
        match lockRelease rw1.read_cnt_lock with
        | (.exn e, rcl2) => some (.exn e, g1, { rw1 with read_cnt_lock := rcl2 })
        | (.ok _, rcl2) => some (.ok (), g1, { rw1 with read_cnt_lock := rcl2 })

/-- `RWLock._wlock.acquire(blocking)`, from `src/rwlock.py` lines 108-112:
acquire `resource_lock` directly; on success set `locked = True` and return
`True`, on failure return `False`. -/
def Wlock.acquire (g : Wlock) (rw : RWLock) (blocking : Bool) :
    Option (Outcome Bool × Wlock × RWLock) :=
  match lockAcquire rw.resource_lock blocking with
  | none => none
  | some (false, res) => some (.ok false, g, { rw with resource_lock := res })
  | some (true, res) =>
    some (.ok true, { g with locked := true }, { rw with resource_lock := res })

/-- `RWLock._wlock.release()`, from `src/rwlock.py` lines 114-118: raise
`guardReleaseError` if `locked` is false; otherwise clear `locked` and
release `resource_lock`.  It never blocks, so no `Option` is needed. -/
def Wlock.release (g : Wlock) (rw : RWLock) :
    Outcome Unit × Wlock × RWLock :=
  if g.locked = false then
    (.exn guardReleaseError, g, rw)
  else
    let g1 : Wlock := { g with locked := false }
    match lockRelease rw.resource_lock with
    | (.exn e, res) => (.exn e, g1, { rw with resource_lock := res })
    | (.ok _, res) => (.ok (), g1, { rw with resource_lock := res })

/-- A Python value, as far as attribute lookup on a guard needs: the boolean
stored in the instance dictionary, or a bound method found in the class
dictionary. -/
inductive PyValue where
  | bool (b : Bool)
  | boundMethod (m : String)
deriving DecidableEq, Repr

/-- The exception CPython raises when a `bool` is called. -/
def boolNotCallableError : PyError :=
  { cls := "TypeError", msg := "bool object is not callable" }

/-- Attribute lookup for the protocol names on an `RWLock._rlock` instance.
Python consults the instance dictionary before the class dictionary for
plain functions (non-data descriptors); `__init__` stores the boolean
`locked` in the instance dictionary (`self.locked = False`, line 75), so the
name `locked` resolves to the boolean, shadowing the method defined at lines
100-101, while `acquire` and `release` resolve to the class methods. -/
def Rlock.getattr (g : Rlock) (name : String) : Option PyValue :=
  if name = "locked" then some (.bool g.locked)
  else if name = "acquire" ∨ name = "release" then some (.boundMethod name)
  else none

/-- Attribute lookup on an `RWLock._wlock` instance (same shadowing:
`self.locked = False` at line 106 hides the method at lines 120-121). -/
def Wlock.getattr (g : Wlock) (name : String) : Option PyValue :=
  if name = "locked" then some (.bool g.locked)
  else if name = "acquire" ∨ name = "release" then some (.boundMethod name)
  else none

/-- Body of the method `def locked(self)` of `RWLock._rlock` (lines 100-101):
`return self.locked` reads the instance attribute, i.e. the boolean. -/
def Rlock.locked_method (g : Rlock) : Bool := g.locked

/-- Body of the method `def locked(self)` of `RWLock._wlock` (lines 120-121):
`return False`, a constant. -/
def Wlock.locked_method (_g : Wlock) : Bool := false

/-- Evaluation of the call expression `g.locked()` on a reader guard: look up
the attribute `locked` and call the result; calling the boolean raises
`TypeError`. -/
def Rlock.call_locked (g : Rlock) : Outcome Bool :=
  match Rlock.getattr g "locked" with
  | some (.boundMethod _) => .ok (Rlock.locked_method g)
  | some (.bool _) => .exn boolNotCallableError
  | none => .exn { cls := "AttributeError", msg := "locked" }

/-- Evaluation of the call expression `g.locked()` on a writer guard. -/
def Wlock.call_locked (g : Wlock) : Outcome Bool :=
  match Wlock.getattr g "locked" with
  | some (.boundMethod _) => .ok (Wlock.locked_method g)
  | some (.bool _) => .exn boolNotCallableError
  | none => .exn { cls := "AttributeError", msg := "locked" }

/-- Semantics of `Lockable.__enter__` (lines 36-39) for a reader guard: call
`self.acquire()` (blocking) and return the constant `False` as the value
bound by the `with` statement. -/
def Rlock.enter (g : Rlock) (rw : RWLock) :
    Option (Outcome PyValue × Rlock × RWLock) :=
  match Rlock.acquire g rw true with
  | none => none
  | some (.exn e, g1, rw1) => some (.exn e, g1, rw1)
  | some (.ok _, g1, rw1) => some (.ok (PyValue.bool false), g1, rw1)

/-- Semantics of `Lockable.__enter__` for a writer guard. -/
def Wlock.enter (g : Wlock) (rw : RWLock) :
    Option (Outcome PyValue × Wlock × RWLock) :=
  match Wlock.acquire g rw true with
  | none => none
  | some (.exn e, g1, rw1) => some (.exn e, g1, rw1)
  | some (.ok _, g1, rw1) => some (.ok (PyValue.bool false), g1, rw1)

/-- Semantics of the statement `with g: body` for a reader guard, following
Python's context-manager protocol and `Lockable.__enter__` / `__exit__`
(lines 36-45): `__enter__` calls `acquire()` (blocking); the body runs on the
shared coordinator state and either returns or raises; `__exit__` calls
`release()` on every exit path, normal and exceptional alike, and returns
`False`, so a body exception propagates (unless `release` itself raises, in
which case that exception wins). -/
def Rlock.withDo (g : Rlock) (rw : RWLock)
    (body : RWLock → Outcome Unit × RWLock) :
    Option (Outcome Unit × Rlock × RWLock) :=
  match Rlock.acquire g rw true with
  | none => none
  | some (.exn e, g1, rw1) => some (.exn e, g1, rw1)
  | some (.ok _, g1, rw1) =>
    match Rlock.release g1 (body rw1).2 with
    | none => none
    | some (.exn e2, g2, rw3) => some (.exn e2, g2, rw3)
    | some (.ok _, g2, rw3) => some ((body rw1).1, g2, rw3)

/-- Semantics of the statement `with g: body` for a writer guard. -/
def Wlock.withDo (g : Wlock) (rw : RWLock)
    (body : RWLock → Outcome Unit × RWLock) :
    Option (Outcome Unit × Wlock × RWLock) :=
  match Wlock.acquire g rw true with
  | none => none
  | some (.exn e, g1, rw1) => some (.exn e, g1, rw1)
  | some (.ok _, g1, rw1) =>
    match Wlock.release g1 (body rw1).2 with
    | (.exn e2, g2, rw3) => some (.exn e2, g2, rw3)
    | (.ok _, g2, rw3) => some ((body rw1).1, g2, rw3)

/-- Second definition for the refinement claim C3, transcribed from the
spec's words (section 4.2, reader-guard acquire, steps 1-5): 1. acquire
`readCountLock` respecting `blocking`, on failure return false with no state
touched; 2. increment `readCount`; 3. if the post-increment count is 1,
acquire `resourceLock` respecting `blocking`, and on failure roll back
(decrement `readCount` to its prior value, release `readCountLock`, return
false); 4. release `readCountLock`; 5. mark `held = true` and return true. -/
def readerAcquireSpec (g : Rlock) (rw : RWLock) (blocking : Bool) :
    Option (Outcome Bool × Rlock × RWLock) :=
  match lockAcquire rw.read_cnt_lock blocking with
  | none => none
  | some (false, _) => some (.ok false, g, rw)
  | some (true, _) =>
    let cnt1 := rw.read_cnt + 1
    if cnt1 = (1 : Int) then
      match lockAcquire rw.resource_lock blocking with
      | none => none
      | some (false, _) =>
        some (.ok false, g,
          { rw with read_cnt := cnt1 - 1, read_cnt_lock := false })
      | some (true, _) =>
        some (.ok true, { g with locked := true },
          { rw with read_cnt := cnt1, resource_lock := true,
                    read_cnt_lock := false })
    else
      some (.ok true, { g with locked := true },
        { rw with read_cnt := cnt1, read_cnt_lock := false })

/-- Second definition for the refinement claim C6, transcribed from the
spec's words (section 4.2, writer-guard acquire): directly
`resourceLock.acquire(blocking)`; on success mark `held = true` and return
true; on failure return false with no other state touched. -/
def writerAcquireSpec (g : Wlock) (rw : RWLock) (blocking : Bool) :
    Option (Outcome Bool × Wlock × RWLock) :=
  match lockAcquire rw.resource_lock blocking with
  | none => none
  | some (false, _) => some (.ok false, g, rw)
  | some (true, _) =>
    some (.ok true, { g with locked := true },
      { rw with resource_lock := true })

/-- A configuration of the whole system: one coordinator plus every guard so
far minted from it (readers and writers listed separately; a guard is
identified by its index). -/
structure Config where
  rw : RWLock
  rguards : List Rlock
  wguards : List Wlock
deriving DecidableEq, Repr

/-- The initial configuration: a fresh `RWLock()` and no guards. -/
def Config.start : Config :=
  { rw := RWLock.new, rguards := [], wguards := [] }

/-- Number of reader guards currently in the held state. -/
def readersHeld (c : Config) : Nat :=
  c.rguards.countP (fun g => g.locked)

/-- Number of writer guards currently in the held state. -/
def writersHeld (c : Config) : Nat :=
  c.wguards.countP (fun g => g.locked)

/-- One completed guard operation (or guard creation) on a configuration.
Blocking operations that would suspend (`none`) have no step; an operation
that raises is a step leaving the state as the code left it at the raise. -/
inductive Step : Config → Config → Prop where
  | gen_rlock (c : Config) :
      Step c { rw := c.rw, rguards := c.rguards ++ [c.rw.gen_rlock],
               wguards := c.wguards }
  | gen_wlock (c : Config) :
      Step c { rw := c.rw, rguards := c.rguards,
               wguards := c.wguards ++ [c.rw.gen_wlock] }
  | r_acquire (c : Config) (i : Nat) (b : Bool) (g g' : Rlock)
      (o : Outcome Bool) (rw' : RWLock) :
      c.rguards.get? i = some g →
      Rlock.acquire g c.rw b = some (o, g', rw') →
      Step c { rw := rw', rguards := c.rguards.set i g', wguards := c.wguards }
  | r_release (c : Config) (i : Nat) (g g' : Rlock)
      (o : Outcome Unit) (rw' : RWLock) :
      c.rguards.get? i = some g →
      Rlock.release g c.rw = some (o, g', rw') →
      Step c { rw := rw', rguards := c.rguards.set i g', wguards := c.wguards }
  | w_acquire (c : Config) (i : Nat) (b : Bool) (g g' : Wlock)
      (o : Outcome Bool) (rw' : RWLock) :
      c.wguards.get? i = some g →
      Wlock.acquire g c.rw b = some (o, g', rw') →
      Step c { rw := rw', rguards := c.rguards, wguards := c.wguards.set i g' }
  | w_release (c : Config) (i : Nat) (g g' : Wlock)
      (o : Outcome Unit) (rw' : RWLock) :
      c.wguards.get? i = some g →
      Wlock.release g c.rw = (o, g', rw') →
      Step c { rw := rw', rguards := c.rguards, wguards := c.wguards.set i g' }

/-- Configurations reachable from the initial one by completed guard
operations. -/
inductive Reachable : Config → Prop where
  | start : Reachable Config.start
  | step {c c' : Config} : Reachable c → Step c c' → Reachable c'

/-- The inductive invariant of the coordinator: between completed operations
the count lock is free; the reader count is a non-negative over-approximation
of the number of held reader guards; at most one writer is held, never
together with a positive reader count; and the resource lock is held exactly
when the reader count is positive or a writer is held. -/
def CoordInv (c : Config) : Prop :=
  c.rw.read_cnt_lock = false ∧
  0 ≤ c.rw.read_cnt ∧
  (readersHeld c : Int) ≤ c.rw.read_cnt ∧
  writersHeld c ≤ 1 ∧
  (0 < c.rw.read_cnt → writersHeld c = 0) ∧
  (c.rw.resource_lock = true ↔ 0 < c.rw.read_cnt ∨ 0 < writersHeld c)

/-- Setting index `i` (which holds `g`) to `g'` shifts `countP` by the
difference of the two indicator values, stated additively. -/
theorem countP_set_eq {α : Type} (p : α → Bool) (l : List α) (i : Nat)
    (g g' : α) (h : l.get? i = some g) :
    (l.set i g').countP p + (if p g then 1 else 0) =
      l.countP p + (if p g' then 1 else 0) := by
  induction l generalizing i with
  | nil => simp at h
  | cons a t ih =>
    cases i with
    | zero =>
      simp only [List.get?] at h
      injection h with h
      subst h
      simp [List.countP_cons]
      omega
    | succ n =>
      simp only [List.get?] at h
      have := ih n h
      simp [List.countP_cons]
      omega

/-- A guard found at some index and satisfying `p` makes `countP` positive. -/
theorem countP_pos_of_get {α : Type} (p : α → Bool) (l : List α) (i : Nat)
    (g : α) (h : l.get? i = some g) (hp : p g = true) : 0 < l.countP p :=
  List.countP_pos_iff.mpr ⟨g, List.get?_mem h, hp⟩

/-- Two distinct indices both holding guards that satisfy `p` make `countP`
at least 2. -/
theorem two_le_countP_of_get {α : Type} (p : α → Bool) (l : List α)
    (i j : Nat) (gi gj : α) (hne : i ≠ j)
    (hi : l.get? i = some gi) (hj : l.get? j = some gj)
    (hpi : p gi = true) (hpj : p gj = true) : 2 ≤ l.countP p := by
  induction l generalizing i j with
  | nil => simp at hi
  | cons a t ih =>
    cases i with
    | zero =>
      cases j with
      | zero => exact absurd rfl hne
      | succ m =>
        simp only [List.get?] at hi hj
        injection hi with hi
        subst hi
        have h1 : 0 < t.countP p := countP_pos_of_get p t m gj hj hpj
        have h2 : (a :: t).countP p = t.countP p + 1 := by
          simp [List.countP_cons, hpi]
        omega
    | succ n =>
      cases j with
      | zero =>
        simp only [List.get?] at hi hj
        injection hj with hj
        subst hj
        have h1 : 0 < t.countP p := countP_pos_of_get p t n gi hi hpi
        have h2 : (a :: t).countP p = t.countP p + 1 := by
          simp [List.countP_cons, hpj]
        omega
      | succ m =>
        simp only [List.get?] at hi hj
        have h1 := ih n m (by omega) hi hj
        simp [List.countP_cons]
        omega

/-- The invariant holds initially. -/
theorem inv_start : CoordInv Config.start := by
  simp [CoordInv, Config.start, RWLock.new, readersHeld, writersHeld]

/-- Replacing an element by one with the same `p`-value keeps `countP`. -/
theorem countP_set_keep {α : Type} (p : α → Bool) (l : List α) (i : Nat)
    (g g' : α) (h : l.get? i = some g) (he : p g = p g') :
    (l.set i g').countP p = l.countP p := by
  have hc := countP_set_eq p l i g g' h
  rw [he] at hc
  omega

/-- Replacing a non-`p` element by a `p` element raises `countP` by one. -/
theorem countP_set_up {α : Type} (p : α → Bool) (l : List α) (i : Nat)
    (g g' : α) (h : l.get? i = some g) (hg : p g = false) (hg' : p g' = true) :
    (l.set i g').countP p = l.countP p + 1 := by
  have hc := countP_set_eq p l i g g' h
  rw [hg, hg'] at hc
  simp at hc
  omega

/-- Replacing a `p` element by a non-`p` element lowers `countP` by one. -/
theorem countP_set_down {α : Type} (p : α → Bool) (l : List α) (i : Nat)
    (g g' : α) (h : l.get? i = some g) (hg : p g = true) (hg' : p g' = false) :
    (l.set i g').countP p + 1 = l.countP p := by
  have hc := countP_set_eq p l i g g' h
  rw [hg, hg'] at hc
  simp at hc
  omega

/-- Every completed guard operation preserves the coordinator invariant. -/
theorem inv_step {c c' : Config} (hI : CoordInv c) (hs : Step c c') :
    CoordInv c' := by
  cases hs with
  | gen_rlock =>
    simpa [CoordInv, readersHeld, writersHeld, List.countP_append,
      RWLock.gen_rlock] using hI
  | gen_wlock =>
    simpa [CoordInv, readersHeld, writersHeld, List.countP_append,
      RWLock.gen_wlock] using hI
  | r_acquire i b g g' o rw' hget hacq =>
    obtain ⟨⟨cnt, res, rcl⟩, rgs, wgs⟩ := c
    unfold CoordInv at hI
    simp only [readersHeld, writersHeld] at hI
    dsimp only at hI hget hacq ⊢
    obtain ⟨hrcl, hnn, hrc, hw1, hwz, hres⟩ := hI
    subst hrcl
    unfold Rlock.acquire at hacq
    simp only [lockAcquire, Bool.false_eq_true, if_false, if_true] at hacq
    by_cases h1 : cnt + 1 = (1 : Int)
    · have hc0 : cnt = 0 := by omega
      subst hc0
      have hg0 : rgs.countP (fun x => x.locked) = 0 := by omega
      have hgl : g.locked = false := by
        cases hgl2 : g.locked
        · rfl
        · have := countP_pos_of_get (fun x => x.locked) rgs i g hget hgl2
          omega
      cases res with
      | true =>
        cases b with
        | true => simp [h1] at hacq
        | false =>
          simp only [h1, if_true, lockRelease] at hacq
          simp at hacq
          obtain ⟨ho, hg, hrw⟩ := hacq
          subst hg
          subst hrw
          have hwpos : 0 < wgs.countP (fun x => x.locked) :=
            (hres.mp rfl).resolve_left (by omega)
          have hkeep := countP_set_keep (fun x => x.locked) rgs i g g hget rfl
          unfold CoordInv
          simp only [readersHeld, writersHeld]
          exact ⟨by trivial, by omega, by omega, hw1, by intro h; omega,
            iff_of_true (by trivial) (Or.inr hwpos)⟩
      | false =>
        have hw0 : wgs.countP (fun x => x.locked) = 0 := by
          by_contra h
          have hcon : (false : Bool) = true := hres.mpr (Or.inr (by omega))
          simp at hcon
        simp only [h1, if_true, lockRelease] at hacq
        simp at hacq
        obtain ⟨ho, hg, hrw⟩ := hacq
        subst hg
        subst hrw
        have hset := countP_set_up (fun x => x.locked) rgs i g ⟨true⟩ hget hgl rfl
        unfold CoordInv
        simp only [readersHeld, writersHeld]
        exact ⟨by trivial, by omega, by omega, hw1, by intro h; omega,
          iff_of_true (by trivial) (Or.inl (by omega))⟩
    · simp only [h1, if_false, lockRelease] at hacq
      simp at hacq
      obtain ⟨ho, hg, hrw⟩ := hacq
      subst hg
      subst hrw
      have hcpos : 0 < cnt := by omega
      have hw0 : wgs.countP (fun x => x.locked) = 0 := hwz hcpos
      have hrt : res = true := hres.mpr (Or.inl hcpos)
      subst hrt
      unfold CoordInv
      simp only [readersHeld, writersHeld]
      cases hgl : g.locked with
      | false =>
        have hset := countP_set_up (fun x => x.locked) rgs i g ⟨true⟩ hget hgl rfl
        exact ⟨by trivial, by omega, by omega, hw1, by intro h; omega,
          iff_of_true (by trivial) (Or.inl (by omega))⟩
      | true =>
        have hset := countP_set_keep (fun x => x.locked) rgs i g ⟨true⟩ hget hgl
        exact ⟨by trivial, by omega, by omega, hw1, by intro h; omega,
          iff_of_true (by trivial) (Or.inl (by omega))⟩
  | r_release i g g' o rw' hget hrel =>
    obtain ⟨⟨cnt, res, rcl⟩, rgs, wgs⟩ := c
    unfold CoordInv at hI
    simp only [readersHeld, writersHeld] at hI
    dsimp only at hI hget hrel ⊢
    obtain ⟨hrcl, hnn, hrc, hw1, hwz, hres⟩ := hI
    subst hrcl
    unfold Rlock.release at hrel
    cases hgl : g.locked with
    | false =>
      simp only [hgl, if_true] at hrel
      simp at hrel
      obtain ⟨ho, hg, hrw⟩ := hrel
      subst hg
      subst hrw
      have hkeep := countP_set_keep (fun x => x.locked) rgs i g g hget rfl
      unfold CoordInv
      simp only [readersHeld, writersHeld]
      refine ⟨by trivial, hnn, by omega, hw1, hwz, ?_⟩
      exact hres
    | true =>
      have hrpos : 0 < rgs.countP (fun x => x.locked) :=
        countP_pos_of_get (fun x => x.locked) rgs i g hget hgl
      have hcpos : 0 < cnt := by omega
      have hw0 : wgs.countP (fun x => x.locked) = 0 := hwz hcpos
      have hrt : res = true := hres.mpr (Or.inl hcpos)
      subst hrt
      simp only [hgl, lockAcquire, lockRelease] at hrel
      simp only [Bool.false_eq_true, Bool.true_eq_false, if_false, if_true] at hrel
      by_cases h0 : cnt - 1 = (0 : Int)
      · simp only [h0, if_true] at hrel
        simp at hrel
        obtain ⟨ho, hg, hrw⟩ := hrel
        subst hg
        subst hrw
        have hset := countP_set_down (fun x => x.locked) rgs i g ⟨false⟩ hget hgl rfl
        unfold CoordInv
        simp only [readersHeld, writersHeld]
        exact ⟨by trivial, by omega, by omega, hw1, by intro h; omega,
          iff_of_false (by simp) (by omega)⟩
      · simp only [h0, if_false] at hrel
        simp at hrel
        obtain ⟨ho, hg, hrw⟩ := hrel
        subst hg
        subst hrw
        have hset := countP_set_down (fun x => x.locked) rgs i g ⟨false⟩ hget hgl rfl
        unfold CoordInv
        simp only [readersHeld, writersHeld]
        exact ⟨by trivial, by omega, by omega, hw1, by intro h; exact hw0,
          iff_of_true (by trivial) (Or.inl (by omega))⟩
  | w_acquire i b g g' o rw' hget hacq =>
    obtain ⟨⟨cnt, res, rcl⟩, rgs, wgs⟩ := c
    unfold CoordInv at hI
    simp only [readersHeld, writersHeld] at hI
    dsimp only at hI hget hacq ⊢
    obtain ⟨hrcl, hnn, hrc, hw1, hwz, hres⟩ := hI
    subst hrcl
    unfold Wlock.acquire at hacq
    cases res with
    | true =>
      cases b with
      | true => simp [lockAcquire] at hacq
      | false =>
        simp only [lockAcquire, if_true, Bool.false_eq_true, if_false] at hacq
        simp at hacq
        obtain ⟨ho, hg, hrw⟩ := hacq
        subst hg
        subst hrw
        have hkeep := countP_set_keep (fun x => x.locked) wgs i g g hget rfl
        unfold CoordInv
        simp only [readersHeld, writersHeld]
        refine ⟨by trivial, hnn, hrc, by omega, by intro h; have := hwz h; omega, ?_⟩
        exact iff_of_true trivial (by rw [hkeep]; exact hres.mp rfl)
    | false =>
      have hc0 : cnt = 0 := by
        by_contra h
        have hcnt0 : 0 ≤ cnt := hnn
        have hcon : (false : Bool) = true := hres.mpr (Or.inl (by omega))
        simp at hcon
      have hw0 : wgs.countP (fun x => x.locked) = 0 := by
        by_contra h
        have hcon : (false : Bool) = true := hres.mpr (Or.inr (by omega))
        simp at hcon
      have hgl : g.locked = false := by
        cases hgl2 : g.locked
        · rfl
        · have := countP_pos_of_get (fun x => x.locked) wgs i g hget hgl2
          omega
      simp only [lockAcquire, Bool.false_eq_true, if_false] at hacq
      simp at hacq
      obtain ⟨ho, hg, hrw⟩ := hacq
      subst hg
      subst hrw
      have hset := countP_set_up (fun x => x.locked) wgs i g ⟨true⟩ hget hgl rfl
      unfold CoordInv
      simp only [readersHeld, writersHeld]
      exact ⟨by trivial, hnn, hrc, by omega, by intro h; omega,
        iff_of_true (by trivial) (Or.inr (by omega))⟩
  | w_release i g g' o rw' hget hrel =>
    obtain ⟨⟨cnt, res, rcl⟩, rgs, wgs⟩ := c
    unfold CoordInv at hI
    simp only [readersHeld, writersHeld] at hI
    dsimp only at hI hget hrel ⊢
    obtain ⟨hrcl, hnn, hrc, hw1, hwz, hres⟩ := hI
    subst hrcl
    unfold Wlock.release at hrel
    cases hgl : g.locked with
    | false =>
      simp only [hgl, if_true] at hrel
      simp at hrel
      obtain ⟨ho, hg, hrw⟩ := hrel
      subst hg
      subst hrw
      have hkeep := countP_set_keep (fun x => x.locked) wgs i g g hget rfl
      unfold CoordInv
      simp only [readersHeld, writersHeld]
      refine ⟨by trivial, hnn, hrc, by omega, by intro h; have := hwz h; omega, ?_⟩
      rw [hkeep]
      exact hres
    | true =>
      have hwpos : 0 < wgs.countP (fun x => x.locked) :=
        countP_pos_of_get (fun x => x.locked) wgs i g hget hgl
      have hc0 : cnt = 0 := by
        by_contra h
        have hcnt0 : 0 ≤ cnt := hnn
        have := hwz (by omega)
        omega
      have hrt : res = true := hres.mpr (Or.inr hwpos)
      subst hrt
      simp only [hgl, lockRelease, if_true, Bool.true_eq_false, if_false] at hrel
      simp at hrel
      obtain ⟨ho, hg, hrw⟩ := hrel
      subst hg
      subst hrw
      have hset := countP_set_down (fun x => x.locked) wgs i g ⟨false⟩ hget hgl rfl
      unfold CoordInv
      simp only [readersHeld, writersHeld]
      exact ⟨by trivial, hnn, hrc, by omega, by intro h; omega,
        iff_of_false (by simp) (by omega)⟩

/-- Every reachable configuration satisfies the coordinator invariant. -/
theorem reachable_inv {c : Config} (h : Reachable c) : CoordInv c := by
  induction h with
  | start => exact inv_start
  | step _ hs ih => exact inv_step ih hs

/-- A blocking reader acquire that completes has returned `True` and left the
guard held (the only non-completing outcome of `blocking=True` is to stay
suspended). -/
theorem r_acquire_blocking {g : Rlock} {rw : RWLock} {o : Outcome Bool}
    {g1 : Rlock} {rw1 : RWLock}
    (h : Rlock.acquire g rw true = some (o, g1, rw1)) :
    o = .ok true ∧ g1.locked = true := by
  obtain ⟨cnt, res, rcl⟩ := rw
  cases rcl with
  | true => simp [Rlock.acquire, lockAcquire] at h
  | false =>
    unfold Rlock.acquire at h
    simp only [lockAcquire, Bool.false_eq_true, if_false, if_true] at h
    by_cases h1 : cnt + 1 = (1 : Int)
    · cases res with
      | true => simp [h1] at h
      | false =>
        simp only [h1, if_true, lockRelease] at h
        simp at h
        obtain ⟨ho, hg, -⟩ := h
        exact ⟨ho.symm, by rw [← hg]⟩
    · simp only [h1, if_false, lockRelease] at h
      simp at h
      obtain ⟨ho, hg, -⟩ := h
      exact ⟨ho.symm, by rw [← hg]⟩

/-- A blocking writer acquire that completes has returned `True` and left the
guard held. -/
theorem w_acquire_blocking {g : Wlock} {rw : RWLock} {o : Outcome Bool}
    {g1 : Wlock} {rw1 : RWLock}
    (h : Wlock.acquire g rw true = some (o, g1, rw1)) :
    o = .ok true ∧ g1.locked = true := by
  obtain ⟨cnt, res, rcl⟩ := rw
  cases res with
  | true => simp [Wlock.acquire, lockAcquire] at h
  | false =>
    unfold Wlock.acquire at h
    simp only [lockAcquire, Bool.false_eq_true, if_false] at h
    simp at h
    obtain ⟨ho, hg, -⟩ := h
    exact ⟨ho.symm, by rw [← hg]⟩

/-- A completed reader release leaves the guard's `locked` flag false,
whether it returned normally or raised. -/
theorem r_release_clears {g : Rlock} {rw : RWLock} {o : Outcome Unit}
    {g' : Rlock} {rw' : RWLock}
    (h : Rlock.release g rw = some (o, g', rw')) : g'.locked = false := by
  unfold Rlock.release at h
  cases hgl : g.locked with
  | false =>
    simp only [hgl, if_true] at h
    simp at h
    obtain ⟨-, hg, -⟩ := h
    rw [← hg, hgl]
  | true =>
    obtain ⟨cnt, res, rcl⟩ := rw
    cases rcl with
    | true => simp [hgl, lockAcquire] at h
    | false =>
      simp only [hgl, lockAcquire, Bool.true_eq_false, if_false, if_true,
        lockRelease] at h
      by_cases h0 : cnt - 1 = (0 : Int)
      · cases res with
        | true =>
          simp only [h0, if_true] at h
          simp at h
          obtain ⟨-, hg, -⟩ := h
          rw [← hg]
        | false =>
          simp only [h0, if_true] at h
          simp at h
          obtain ⟨-, hg, -⟩ := h
          rw [← hg]
      · simp only [h0, if_false] at h
        simp at h
        obtain ⟨-, hg, -⟩ := h
        rw [← hg]

/-- A writer release leaves the guard's `locked` flag false, whether it
returned normally or raised. -/
theorem w_release_clears {g : Wlock} {rw : RWLock} {o : Outcome Unit}
    {g' : Wlock} {rw' : RWLock}
    (h : Wlock.release g rw = (o, g', rw')) : g'.locked = false := by
  unfold Wlock.release at h
  cases hgl : g.locked with
  | false =>
    simp only [hgl, if_true] at h
    simp at h
    obtain ⟨-, hg, -⟩ := h
    rw [← hg, hgl]
  | true =>
    obtain ⟨cnt, res, rcl⟩ := rw
    cases res with
    | true =>
      simp only [hgl, lockRelease, Bool.true_eq_false, if_false, if_true] at h
      simp at h
      obtain ⟨-, hg, -⟩ := h
      rw [← hg]
    | false =>
      simp only [hgl, lockRelease, Bool.true_eq_false, Bool.false_eq_true,
        if_false] at h
      simp at h
      obtain ⟨-, hg, -⟩ := h
      rw [← hg]

/-- A reachable configuration with one held reader guard. -/
def cfgR : Config :=
  { rw := { read_cnt := 1, resource_lock := true, read_cnt_lock := false },
    rguards := [{ locked := true }], wguards := [] }

/-- A reachable configuration with one held writer guard. -/
def cfgW : Config :=
  { rw := { read_cnt := 0, resource_lock := true, read_cnt_lock := false },
    rguards := [], wguards := [{ locked := true }] }

/-- `cfgR` is reached by minting a reader guard and acquiring it. -/
theorem reachable_cfgR : Reachable cfgR := by
  have h1 : Reachable
      { rw := RWLock.new, rguards := [{ locked := false }], wguards := [] } :=
    Reachable.step Reachable.start (Step.gen_rlock Config.start)
  exact Reachable.step h1
    (Step.r_acquire
      { rw := RWLock.new, rguards := [{ locked := false }], wguards := [] }
      0 true { locked := false } { locked := true } (.ok true)
      { read_cnt := 1, resource_lock := true, read_cnt_lock := false }
      rfl (by decide))

/-- `cfgW` is reached by minting a writer guard and acquiring it. -/
theorem reachable_cfgW : Reachable cfgW := by
  have h1 : Reachable
      { rw := RWLock.new, rguards := [], wguards := [{ locked := false }] } :=
    Reachable.step Reachable.start (Step.gen_wlock Config.start)
  exact Reachable.step h1
    (Step.w_acquire
      { rw := RWLock.new, rguards := [], wguards := [{ locked := false }] }
      0 true { locked := false } { locked := true } (.ok true)
      { read_cnt := 0, resource_lock := true, read_cnt_lock := false }
      rfl (by decide))

/-- C1: Mutual exclusion — in every configuration reachable by guard
operations on one RWLock, a held WriteGuard never coexists with a second
held WriteGuard (two held writer guards must be the same index) nor with any
held ReadGuard. -/
theorem rwlock_mutual_exclusion (c : Config) (h : Reachable c) :
    (∀ i j gi gj, c.wguards.get? i = some gi → c.wguards.get? j = some gj →
      gi.locked = true → gj.locked = true → i = j) ∧
    (∀ i j gw gr, c.wguards.get? i = some gw → gw.locked = true →
      c.rguards.get? j = some gr → gr.locked = true → False) := by
  obtain ⟨-, -, hrc, hw1, hwz, -⟩ := reachable_inv h
  unfold readersHeld at hrc
  unfold writersHeld at hw1 hwz
  constructor
  · intro i j gi gj hi hj hli hlj
    by_contra hne
    have h2 := two_le_countP_of_get (fun x => x.locked) c.wguards i j gi gj
      hne hi hj hli hlj
    omega
  · intro i j gw gr hi hli hj hlj
    have hwpos : 0 < c.wguards.countP (fun x => x.locked) :=
      countP_pos_of_get (fun x => x.locked) c.wguards i gw hi hli
    have hrpos : 0 < c.rguards.countP (fun x => x.locked) :=
      countP_pos_of_get (fun x => x.locked) c.rguards j gr hj hlj
    have hw0 := hwz (by omega)
    omega

/-- Witness for C1 at the concrete reachable configuration `cfgW`: the single
held writer guard is unique. -/
theorem rwlock_mutual_exclusion_witness :
    Reachable cfgW ∧ (0 : Nat) = 0 :=
  ⟨reachable_cfgW,
    (rwlock_mutual_exclusion cfgW reachable_cfgW).1 0 0
      { locked := true } { locked := true } rfl rfl rfl rfl⟩

/-- C2: Coordinator invariant — in every configuration reachable by completed
guard operations, `read_cnt` never goes negative; a positive `read_cnt`
means `resource_lock` is held on behalf of the reader group (held, and not
by any writer); and `read_cnt = 0` means `resource_lock` is either free (no
writer held) or held by exactly one writer. -/
theorem rwlock_coordinator_invariant (c : Config) (h : Reachable c) :
    0 ≤ c.rw.read_cnt ∧
    (0 < c.rw.read_cnt → c.rw.resource_lock = true ∧ writersHeld c = 0) ∧
    (c.rw.read_cnt = 0 →
      (c.rw.resource_lock = false ∧ writersHeld c = 0) ∨
      (c.rw.resource_lock = true ∧ writersHeld c = 1)) := by
  obtain ⟨-, hnn, hrc, hw1, hwz, hres⟩ := reachable_inv h
  refine ⟨hnn, ?_, ?_⟩
  · intro hpos
    exact ⟨hres.mpr (Or.inl hpos), hwz hpos⟩
  · intro h0
    by_cases hw : writersHeld c = 0
    · left
      refine ⟨?_, hw⟩
      cases hre : c.rw.resource_lock with
      | false => rfl
      | true =>
        have hd := hres.mp hre
        omega
    · right
      have hwpos : 0 < writersHeld c := by omega
      exact ⟨hres.mpr (Or.inr hwpos), by omega⟩

/-- Witness for C2 at the concrete reachable configuration `cfgR` (one held
reader): its positive reader count forces the resource lock to be held with
no writer. -/
theorem rwlock_coordinator_invariant_witness :
    cfgR.rw.resource_lock = true ∧ writersHeld cfgR = 0 :=
  (rwlock_coordinator_invariant cfgR reachable_cfgR).2.1 (by decide)

/-- C4: Rollback atomicity — a reader acquire that enters as the first
reader (pre-call count 0, count lock free) and fails the non-blocking
`resource_lock` acquisition returns false and restores the state exactly:
`read_cnt` keeps its pre-call value, `read_cnt_lock` is not left held, and
the guard's `held` flag is still false. -/
theorem reader_rollback_atomicity (g : Rlock) (rw : RWLock)
    (hrcl : rw.read_cnt_lock = false) (hfirst : rw.read_cnt = 0)
    (hres : rw.resource_lock = true) (hheld : g.locked = false) :
    Rlock.acquire g rw false = some (.ok false, g, rw) ∧ g.locked = false := by
  obtain ⟨cnt, res, rcl⟩ := rw
  dsimp only at hrcl hfirst hres
  subst hrcl
  subst hfirst
  subst hres
  refine ⟨?_, hheld⟩
  simp [Rlock.acquire, lockAcquire, lockRelease]

/-- Witness for C4 at a concrete failing first-reader acquire. -/
theorem reader_rollback_atomicity_witness :
    Rlock.acquire { locked := false }
        { read_cnt := 0, resource_lock := true, read_cnt_lock := false }
        false =
      some (.ok false, { locked := false },
        { read_cnt := 0, resource_lock := true, read_cnt_lock := false }) ∧
    ({ locked := false } : Rlock).locked = false :=
  reader_rollback_atomicity { locked := false }
    { read_cnt := 0, resource_lock := true, read_cnt_lock := false }
    rfl rfl rfl rfl

/-- C5: releasing a guard whose `held` state is false raises exactly the
error a plain mutual-exclusion lock raises when released unacquired: same
class and same message (the module probes that error at import time and the
guards re-raise it). -/
theorem release_without_acquire_error (gr : Rlock) (gw : Wlock) (rw : RWLock)
    (hr : gr.locked = false) (hw : gw.locked = false) :
    Rlock.release gr rw = some (.exn guardReleaseError, gr, rw) ∧
    Wlock.release gw rw = (.exn guardReleaseError, gw, rw) ∧
    (lockRelease false).1 = Outcome.exn guardReleaseError := by
  refine ⟨?_, ?_, rfl⟩
  · simp [Rlock.release, hr]
  · simp [Wlock.release, hw]

/-- Witness for C5 at concrete never-acquired guards. -/
theorem release_without_acquire_error_witness :
    Rlock.release { locked := false } RWLock.new =
      some (.exn guardReleaseError, { locked := false }, RWLock.new) ∧
    Wlock.release { locked := false } RWLock.new =
      (.exn guardReleaseError, { locked := false }, RWLock.new) ∧
    (lockRelease false).1 = Outcome.exn guardReleaseError :=
  release_without_acquire_error { locked := false } { locked := false }
    RWLock.new rfl rfl

/-- C7: Writer frame property — every completed writer-guard operation,
acquire or release, succeeding or raising, leaves the coordinator's
`read_cnt` and `read_cnt_lock` unchanged. -/
theorem writer_frame_property :
    (∀ (g : Wlock) (rw : RWLock) (b : Bool) (o : Outcome Bool)
        (g' : Wlock) (rw' : RWLock),
      Wlock.acquire g rw b = some (o, g', rw') →
      rw'.read_cnt = rw.read_cnt ∧ rw'.read_cnt_lock = rw.read_cnt_lock) ∧
    (∀ (g : Wlock) (rw : RWLock) (o : Outcome Unit)
        (g' : Wlock) (rw' : RWLock),
      Wlock.release g rw = (o, g', rw') →
      rw'.read_cnt = rw.read_cnt ∧ rw'.read_cnt_lock = rw.read_cnt_lock) := by
  constructor
  · intro g rw b o g' rw' h
    obtain ⟨cnt, res, rcl⟩ := rw
    unfold Wlock.acquire at h
    cases res with
    | true =>
      cases b with
      | true => simp [lockAcquire] at h
      | false =>
        simp only [lockAcquire, if_true, Bool.false_eq_true, if_false] at h
        simp at h
        obtain ⟨-, -, hrw⟩ := h
        rw [← hrw]
        exact ⟨rfl, rfl⟩
    | false =>
      simp only [lockAcquire, Bool.false_eq_true, if_false] at h
      simp at h
      obtain ⟨-, -, hrw⟩ := h
      rw [← hrw]
      exact ⟨rfl, rfl⟩
  · intro g rw o g' rw' h
    obtain ⟨cnt, res, rcl⟩ := rw
    unfold Wlock.release at h
    cases hgl : g.locked with
    | false =>
      simp only [hgl, if_true] at h
      simp at h
      obtain ⟨-, -, hrw⟩ := h
      rw [← hrw]
      exact ⟨rfl, rfl⟩
    | true =>
      cases res with
      | true =>
        simp only [hgl, lockRelease, Bool.true_eq_false, if_false, if_true] at h
        simp at h
        obtain ⟨-, -, hrw⟩ := h
        rw [← hrw]
        exact ⟨rfl, rfl⟩
      | false =>
        simp only [hgl, lockRelease, Bool.true_eq_false, Bool.false_eq_true,
          if_false] at h
        simp at h
        obtain ⟨-, -, hrw⟩ := h
        rw [← hrw]
        exact ⟨rfl, rfl⟩

/-- Witness for C7 at a concrete successful writer acquire. -/
theorem writer_frame_property_witness :
    ({ read_cnt := 0, resource_lock := true, read_cnt_lock := false }
        : RWLock).read_cnt = RWLock.new.read_cnt ∧
    ({ read_cnt := 0, resource_lock := true, read_cnt_lock := false }
        : RWLock).read_cnt_lock = RWLock.new.read_cnt_lock :=
  writer_frame_property.1 { locked := false } RWLock.new true (.ok true)
    { locked := true }
    { read_cnt := 0, resource_lock := true, read_cnt_lock := false } rfl

/-- C8: evaluating the call `g.locked()` on either guard kind raises
`TypeError` (the boolean instance attribute written by `__init__` shadows
the `locked` method), instead of reporting the hold status; moreover even
the shadowed `_wlock.locked` method body returns the constant `False`
regardless of the hold status.  This contradicts the `Lockable` protocol
(`locked() -> bool`) the guards declare. -/
theorem locked_attribute_shadows_method :
    (∀ g : Rlock, Rlock.call_locked g = .exn boolNotCallableError) ∧
    (∀ g : Wlock, Wlock.call_locked g = .exn boolNotCallableError) ∧
    Wlock.locked_method { locked := true } = false := by
  refine ⟨?_, ?_, rfl⟩
  · intro g
    simp [Rlock.call_locked, Rlock.getattr]
  · intro g
    simp [Wlock.call_locked, Wlock.getattr]

/-- C10: the context-manager enter of a guard returns the constant `False`,
not the guard and not the result of the acquire (which on this completed
path was `True`). -/
theorem enter_returns_constant_false :
    (∀ (g : Rlock) (rw : RWLock) (v : PyValue) (g1 : Rlock) (rw1 : RWLock),
      Rlock.enter g rw = some (.ok v, g1, rw1) → v = PyValue.bool false) ∧
    (∀ (g : Wlock) (rw : RWLock) (v : PyValue) (g1 : Wlock) (rw1 : RWLock),
      Wlock.enter g rw = some (.ok v, g1, rw1) → v = PyValue.bool false) := by
  constructor
  · intro g rw v g1 rw1 h
    unfold Rlock.enter at h
    cases hacq : Rlock.acquire g rw true with
    | none => rw [hacq] at h; simp at h
    | some p =>
      obtain ⟨o0, ga, rwa⟩ := p
      rw [hacq] at h
      cases o0 with
      | exn e => simp at h
      | ok b =>
        simp at h
        exact h.1.symm
  · intro g rw v g1 rw1 h
    unfold Wlock.enter at h
    cases hacq : Wlock.acquire g rw true with
    | none => rw [hacq] at h; simp at h
    | some p =>
      obtain ⟨o0, ga, rwa⟩ := p
      rw [hacq] at h
      cases o0 with
      | exn e => simp at h
      | ok b =>
        simp at h
        exact h.1.symm

/-- Witness for C10 at a concrete scope entry on a fresh lock. -/
theorem enter_returns_constant_false_witness :
    PyValue.bool false = PyValue.bool false :=
  enter_returns_constant_false.1 { locked := false } RWLock.new
    (PyValue.bool false) { locked := true }
    { read_cnt := 1, resource_lock := true, read_cnt_lock := false } rfl

/-- C3: the reader-guard acquire implemented by the code coincides, on every
guard state, coordinator state and blocking mode, with the algorithm
transcribed from the spec (`readerAcquireSpec`). -/
theorem reader_acquire_follows_spec (g : Rlock) (rw : RWLock)
    (blocking : Bool) :
    Rlock.acquire g rw blocking = readerAcquireSpec g rw blocking := by
  obtain ⟨cnt, res, rcl⟩ := rw
  cases rcl <;> cases blocking <;> cases res <;>
    simp [Rlock.acquire, readerAcquireSpec, lockAcquire, lockRelease]

/-- C6: the writer-guard acquire implemented by the code coincides with the
spec's description (`writerAcquireSpec`); in particular, in any reachable
configuration in which some reader guard is held, a non-blocking writer
acquire returns `False` immediately with the coordinator state and the
guard unchanged. -/
theorem writer_acquire_follows_spec :
    (∀ (g : Wlock) (rw : RWLock) (blocking : Bool),
      Wlock.acquire g rw blocking = writerAcquireSpec g rw blocking) ∧
    (∀ (c : Config) (i : Nat) (g : Rlock) (gw : Wlock),
      Reachable c → c.rguards.get? i = some g → g.locked = true →
      Wlock.acquire gw c.rw false = some (.ok false, gw, c.rw)) := by
  constructor
  · intro g rw blocking
    obtain ⟨cnt, res, rcl⟩ := rw
    cases res <;> cases blocking <;>
      simp [Wlock.acquire, writerAcquireSpec, lockAcquire]
  · intro c i g gw h hget hgl
    obtain ⟨-, -, hrc, -, -, hres⟩ := reachable_inv h
    have hrpos : 0 < c.rguards.countP (fun x => x.locked) :=
      countP_pos_of_get (fun x => x.locked) c.rguards i g hget hgl
    unfold readersHeld at hrc
    have hart : c.rw.resource_lock = true := hres.mpr (Or.inl (by omega))
    have heq : ({ c.rw with resource_lock := true } : RWLock) = c.rw := by
      rw [← hart]
    unfold Wlock.acquire
    rw [hart]
    simp [lockAcquire, heq]

/-- Witness for C6 at the concrete reachable configuration `cfgR` (one held
reader): a non-blocking writer acquire fails there without mutation. -/
theorem writer_acquire_follows_spec_witness :
    Wlock.acquire { locked := false } cfgR.rw false =
      some (.ok false, { locked := false }, cfgR.rw) :=
  writer_acquire_follows_spec.2 cfgR 0 { locked := true } { locked := false }
    reachable_cfgR rfl rfl

/-- C9: scoped acquisition for both guard kinds — a completed `with g:`
scope performed a blocking acquire on entry and ran `release()` on the exit
path (whether the body returned normally or raised, the release is what
produced the final state, and when the release returned normally the body's
outcome — including a propagating error — is the scope's outcome); the
guard's `held` flag is false afterwards. -/
theorem scoped_acquire_guaranteed_release :
    (∀ (g : Rlock) (rw : RWLock) (body : RWLock → Outcome Unit × RWLock)
        (o : Outcome Unit) (g' : Rlock) (rw' : RWLock),
      Rlock.withDo g rw body = some (o, g', rw') →
      g'.locked = false ∧
      ∃ g1 rw1, Rlock.acquire g rw true = some (.ok true, g1, rw1) ∧
        ∃ o2, Rlock.release g1 (body rw1).2 = some (o2, g', rw') ∧
          (∀ u, o2 = Outcome.ok u → o = (body rw1).1)) ∧
    (∀ (g : Wlock) (rw : RWLock) (body : RWLock → Outcome Unit × RWLock)
        (o : Outcome Unit) (g' : Wlock) (rw' : RWLock),
      Wlock.withDo g rw body = some (o, g', rw') →
      g'.locked = false ∧
      ∃ g1 rw1, Wlock.acquire g rw true = some (.ok true, g1, rw1) ∧
        ∃ o2, Wlock.release g1 (body rw1).2 = (o2, g', rw') ∧
          (∀ u, o2 = Outcome.ok u → o = (body rw1).1)) := by
  constructor
  · intro g rw body o g' rw' h
    unfold Rlock.withDo at h
    cases hacq : Rlock.acquire g rw true with
    | none => rw [hacq] at h; simp at h
    | some p =>
      obtain ⟨o0, g1, rw1⟩ := p
      obtain ⟨ho0, hg1⟩ := r_acquire_blocking hacq
      subst ho0
      rw [hacq] at h
      simp only [Option.some.injEq] at h
      cases hrel : Rlock.release g1 (body rw1).2 with
      | none =>
        rw [hrel] at h
        simp at h
      | some q =>
        obtain ⟨o2, g2, rw3⟩ := q
        rw [hrel] at h
        cases o2 with
        | exn e2 =>
          simp at h
          obtain ⟨ho, hg, hrw⟩ := h
          subst ho
          subst hg
          subst hrw
          exact ⟨r_release_clears hrel, g1, rw1, rfl, .exn e2, hrel,
            fun u hu => by simp at hu⟩
        | ok u0 =>
          simp at h
          obtain ⟨ho, hg, hrw⟩ := h
          subst ho
          subst hg
          subst hrw
          exact ⟨r_release_clears hrel, g1, rw1, rfl, .ok u0, hrel,
            fun u hu => rfl⟩
  · intro g rw body o g' rw' h
    unfold Wlock.withDo at h
    cases hacq : Wlock.acquire g rw true with
    | none => rw [hacq] at h; simp at h
    | some p =>
      obtain ⟨o0, g1, rw1⟩ := p
      obtain ⟨ho0, hg1⟩ := w_acquire_blocking hacq
      subst ho0
      rw [hacq] at h
      simp only [Option.some.injEq] at h
      cases hrel : Wlock.release g1 (body rw1).2 with
      | mk o2 q =>
        obtain ⟨g2, rw3⟩ := q
        rw [hrel] at h
        cases o2 with
        | exn e2 =>
          simp at h
          obtain ⟨ho, hg, hrw⟩ := h
          subst ho
          subst hg
          subst hrw
          exact ⟨w_release_clears hrel, g1, rw1, rfl, .exn e2, hrel,
            fun u hu => by simp at hu⟩
        | ok u0 =>
          simp at h
          obtain ⟨ho, hg, hrw⟩ := h
          subst ho
          subst hg
          subst hrw
          exact ⟨w_release_clears hrel, g1, rw1, rfl, .ok u0, hrel,
            fun u hu => rfl⟩

/-- Witness for C9: a concrete completed scope on a fresh lock with a no-op
body leaves the reader guard unheld. -/
theorem scoped_acquire_guaranteed_release_witness :
    ({ locked := false } : Rlock).locked = false :=
  (scoped_acquire_guaranteed_release.1 { locked := false } RWLock.new
    (fun rw => (.ok (), rw)) (.ok ()) { locked := false }
    { read_cnt := 0, resource_lock := false, read_cnt_lock := false }
    (by decide)).1
